import Mathlib

/-!
# Verification of the dr-manhattan-ts synchronization layer

A shallow embedding, in Lean 4, of the resilient real-time synchronization
layer of the dr-manhattan-ts trading library: the orderbook cache
(`src/types/market.ts`), the request dispatcher's rate limiter and retry
wrapper (`Exchange.checkRateLimit` / `Exchange.withRetry`), the streaming
client's connection state machine (`OrderBookWebSocket`), and the strategy
engine (`src/core/strategy.ts`).

Prices, sizes and delays are modelled as rationals (`ℚ`); timestamps in
milliseconds as integers (`ℤ`).  JavaScript `parseFloat` results that may be
`NaN` are modelled as `Option ℚ` (with `none` for `NaN`); a `NaN > 0`
comparison is `false` in JavaScript, which matches dropping the `none` case.
Thrown exceptions are modelled with `Except`/`Option` error components.
-/

/-- The error taxonomy of `src/errors/index.ts`, restricted to the classes the
retry policy inspects.  `rateLimit` carries the optional `retryAfter` wait
hint. -/
inductive ExError : Type where
  | network : ExError
  | rateLimit : Option ℤ → ExError
  | authentication : ExError
  | invalidOrder : ExError
  | marketNotFound : ExError
  | exchange : ExError
deriving DecidableEq, Repr

/-- Embeds `error instanceof NetworkError || error instanceof RateLimitError` — the
class test of `Exchange.withRetry`'s catch block. -/
def ExError.isRetryable : ExError → Bool
  | .network => true
  | .rateLimit _ => true
  | _ => false

/-! ## Orderbook model (`src/types/market.ts`) -/

/-- A price level `[price, size]` (`PriceLevel` in `src/types/market.ts`). -/
abbrev PriceLevel : Type := ℚ × ℚ

/-- The normalized `Orderbook` record of `src/types/market.ts`. -/
structure Orderbook : Type where
  bids : List PriceLevel
  asks : List PriceLevel
  timestamp : ℤ
  assetId : String
  marketId : String
deriving DecidableEq, Repr

namespace OrderbookUtils

/-- Source `OrderbookUtils.bestBid`: `orderbook.bids[0]?.[0] ?? null`. -/
def bestBid (orderbook : Orderbook) : Option ℚ :=
  orderbook.bids.head?.map Prod.fst

/-- Source `OrderbookUtils.bestAsk`: `orderbook.asks[0]?.[0] ?? null`. -/
def bestAsk (orderbook : Orderbook) : Option ℚ :=
  orderbook.asks.head?.map Prod.fst

/-- Source `OrderbookUtils.midPrice`: `(bid + ask) / 2`, or `null` if either best
price is missing. -/
def midPrice (orderbook : Orderbook) : Option ℚ :=
  match bestBid orderbook, bestAsk orderbook with
  | some bid, some ask => some ((bid + ask) / 2)
  | _, _ => none

/-- Source `OrderbookUtils.spread`: `ask - bid`, or `null` if either best price is
missing. -/
def spread (orderbook : Orderbook) : Option ℚ :=
  match bestBid orderbook, bestAsk orderbook with
  | some bid, some ask => some (ask - bid)
  | _, _ => none

/-- One raw REST level `{price: string, size: string}` after
`Number.parseFloat` on both fields: `none` stands for `NaN`. -/
abbrev RawLevel : Type := Option ℚ × Option ℚ

/-- The filtering loop of `fromRestResponse`: keep a level only when
`price > 0 && size > 0` (a `NaN` fails both comparisons). -/
def keptLevels (raw : List RawLevel) : List PriceLevel :=
  raw.filterMap fun lvl =>
    match lvl with
    | (some price, some size) =>
        if 0 < price ∧ 0 < size then some (price, size) else none
    | _ => none

/-- Comparator of `bids.sort((a, b) => b[0] - a[0])`: descending by price. -/
def bidOrder (a b : PriceLevel) : Prop := b.1 ≤ a.1

/-- Comparator of `asks.sort((a, b) => a[0] - b[0])`: ascending by price. -/
def askOrder (a b : PriceLevel) : Prop := a.1 ≤ b.1

instance : DecidableRel bidOrder := fun a b => inferInstanceAs (Decidable (b.1 ≤ a.1))

instance : DecidableRel askOrder := fun a b => inferInstanceAs (Decidable (a.1 ≤ b.1))

instance : IsTotal PriceLevel bidOrder := ⟨fun a b => le_total b.1 a.1⟩

instance : IsTrans PriceLevel bidOrder :=
  ⟨fun _ _ _ hab hbc => le_trans hbc hab⟩

instance : IsTotal PriceLevel askOrder := ⟨fun a b => le_total a.1 b.1⟩

instance : IsTrans PriceLevel askOrder :=
  ⟨fun _ _ _ hab hbc => le_trans hab hbc⟩

/-- Source `OrderbookUtils.fromRestResponse`: parse the raw bid and ask arrays, drop
zero/negative/`NaN` levels, sort bids descending and asks ascending by price,
and stamp the snapshot with the current time and the token id. -/
def fromRestResponse (rawBids rawAsks : List RawLevel) (now : ℤ)
    (tokenId : String) : Orderbook where
  bids := (keptLevels rawBids).insertionSort bidOrder
  asks := (keptLevels rawAsks).insertionSort askOrder
  timestamp := now
  assetId := tokenId
  marketId := ""

end OrderbookUtils

/-- Source `OrderbookManager` of `src/types/market.ts`: the per-asset orderbook
cache, a map from token id to the latest snapshot. -/
structure OrderbookManager : Type where
  orderbooks : String → Option Orderbook

namespace OrderbookManager

/-- A fresh manager: `new Map()` holds no snapshot. -/
def empty : OrderbookManager := ⟨fun _ => none⟩

/-- Source `OrderbookManager.update`: `this.orderbooks.set(tokenId, orderbook)` —
unconditional overwrite. -/
def update (m : OrderbookManager) (tokenId : String) (orderbook : Orderbook) :
    OrderbookManager :=
  ⟨fun k => if k = tokenId then some orderbook else m.orderbooks k⟩

/-- Source `OrderbookManager.get`: `this.orderbooks.get(tokenId)`. -/
def get (m : OrderbookManager) (tokenId : String) : Option Orderbook :=
  m.orderbooks tokenId

/-- Source `OrderbookManager.hasData`: false when no snapshot is stored, otherwise
`bids.length > 0 && asks.length > 0`. -/
def hasData (m : OrderbookManager) (tokenId : String) : Bool :=
  match m.get tokenId with
  | none => false
  | some orderbook =>
      decide (0 < orderbook.bids.length) && decide (0 < orderbook.asks.length)

/-- Source `OrderbookManager.hasAllData`: `tokenIds.every((id) => this.hasData(id))`. -/
def hasAllData (m : OrderbookManager) (tokenIds : List String) : Bool :=
  tokenIds.all fun id => m.hasData id

end OrderbookManager

/-! ## Request dispatcher (`Exchange.checkRateLimit` / `Exchange.withRetry`) -/

/-- The sliding-window filter of `checkRateLimit`:
`this.requestTimes.filter((t) => currentTime - t < 1000)`. -/
def windowFilter (now : ℤ) (times : List ℤ) : List ℤ :=
  times.filter fun t => decide (now - t < 1000)

/-- Source `Exchange.checkRateLimit`, state-passing: given the configured
requests-per-second bound, the current time and the stored `requestTimes`,
return the new `requestTimes` together with `some sleepTime` when a
`RateLimitError` is thrown (carrying its `retryAfter` hint) and `none` when
the call passes.  The filter reassignment persists even on the throwing path,
and the throw skips the final `push(currentTime)`.  The guard
`if (oldestRequest)` is JavaScript truthiness: a `0` timestamp skips the
throw. -/
def checkRateLimit (rateLimit : ℕ) (now : ℤ) (times : List ℤ) :
    List ℤ × Option ℤ :=
  let filtered := windowFilter now times
  if rateLimit ≤ filtered.length then
    match filtered.head? with
    | some oldest =>
        if oldest ≠ 0 then
          let sleepTime := 1000 - (now - oldest)
          if 0 < sleepTime then (filtered, some sleepTime)
          else (filtered ++ [now], none)
        else (filtered ++ [now], none)
    | none => (filtered ++ [now], none)
  else (filtered ++ [now], none)

/-- The backoff delay of attempt `attempt` inside `withRetry`:
`retryDelay * retryBackoff ** attempt + Math.random() * 1000`, with the
random draw abstracted as the oracle `jitter`. -/
def retryDelayOf (base backoff : ℚ) (jitter : ℕ → ℚ) (attempt : ℕ) : ℚ :=
  base * backoff ^ attempt + jitter attempt

/-- The observable outcome of one `withRetry` run: the value returned or the
error finally thrown, how many times `checkRateLimit` ran, and the backoff
delays slept between attempts. -/
structure RetryOutcome (α : Type) : Type where
  result : Except ExError α
  rateChecks : ℕ
  delays : List ℚ
deriving Repr

/-- The `for (let attempt = 0; attempt <= maxRetries; attempt++)` loop of
`Exchange.withRetry`.  `rateCheck attempt` is the outcome of the
`this.checkRateLimit()` call made at the start of that attempt (`some hint`
when it throws a `RateLimitError`), abstracting the rate limiter's ambient
clock and mutable window; `fn attempt` is the outcome of `await fn()` on
that attempt.  A retryable error (`NetworkError`/`RateLimitError`) with
`attempt < maxRetries` sleeps the backoff delay and continues; anything else
is re-thrown at once.  `fuel` bounds the recursion and is always at least
`maxRetries + 1 - attempt`. -/
def withRetryGo {α : Type} (maxRetries : ℕ) (base backoff : ℚ)
    (jitter : ℕ → ℚ) (rateCheck : ℕ → Option ℤ)
    (fn : ℕ → Except ExError α) : ℕ → ℕ → RetryOutcome α
  | _, 0 => ⟨.error .exchange, 0, []⟩
  | attempt, fuel + 1 =>
      let attemptResult : Except ExError α :=
        match rateCheck attempt with
        | some hint => .error (.rateLimit (some hint))
        | none => fn attempt
      match attemptResult with
      | .ok v => ⟨.ok v, 1, []⟩
      | .error e =>
          if e.isRetryable ∧ attempt < maxRetries then
            let rest :=
              withRetryGo maxRetries base backoff jitter rateCheck fn
                (attempt + 1) fuel
            ⟨rest.result, rest.rateChecks + 1,
              retryDelayOf base backoff jitter attempt :: rest.delays⟩
          else ⟨.error e, 1, []⟩

/-- Source `Exchange.withRetry`: run the attempt loop from attempt `0`. -/
def withRetry {α : Type} (maxRetries : ℕ) (base backoff : ℚ)
    (jitter : ℕ → ℚ) (rateCheck : ℕ → Option ℤ)
    (fn : ℕ → Except ExError α) : RetryOutcome α :=
  withRetryGo maxRetries base backoff jitter rateCheck fn 0 (maxRetries + 1)

/-! ## Streaming client (`OrderBookWebSocket`) -/

/-- The `WebSocketState` enumeration of the streaming client. -/
inductive WebSocketState : Type where
  | disconnected : WebSocketState
  | connecting : WebSocketState
  | connected : WebSocketState
  | reconnecting : WebSocketState
  | closed : WebSocketState
deriving DecidableEq, Repr

/-- The fields of `OrderBookWebSocket` the connection state machine reads and
writes. -/
structure WSClient : Type where
  state : WebSocketState
  reconnectAttempts : ℕ
  autoReconnect : Bool
  maxReconnectAttempts : ℕ
  reconnectDelayBase : ℚ
deriving DecidableEq, Repr

/-- How one `connect()` promise settles. -/
inductive ConnectOutcome : Type where
  | resolved : ConnectOutcome
  | rejected : ExError → ConnectOutcome
deriving DecidableEq, Repr

/-- The `open` handler of `connect()`: set the state to `CONNECTED` and reset
the attempt counter to `0` (this happens before `authenticate()` is even
called). -/
def openHandler (c : WSClient) : WSClient :=
  { c with state := .connected, reconnectAttempts := 0 }

/-- Source `connect()` in the scenario where the transport opens and
`authenticate()` then settles with `authResult` (subscription replay and the
ping timer abstracted away; both happen only after authentication succeeds).
An early return fires when the state is already `CONNECTED`; otherwise the
state moves to `CONNECTING`, the open handler runs, and the promise resolves
on auth success or rejects with the auth error — without touching the state
again. -/
def connectOpen (c : WSClient) (authResult : Except ExError Unit) :
    WSClient × ConnectOutcome :=
  if c.state = .connected then (c, .resolved)
  else
    let afterOpen := openHandler { c with state := .connecting }
    match authResult with
    | .ok _ => (afterOpen, .resolved)
    | .error e => (afterOpen, .rejected e)

/-- The delay slept before reconnection attempt `attempt` (the value of
`this.reconnectAttempts` after the increment):
`Math.min(60000, reconnectDelay * 1.5 ** (attempt - 1))`. -/
def reconnectDelay (base : ℚ) (attempt : ℕ) : ℚ :=
  min 60000 (base * (3 / 2) ^ (attempt - 1))

/-- The synchronous prefix of `reconnect()`: when the attempt counter has
reached `maxReconnectAttempts`, set the state to `CLOSED` and return without
throwing (`none`: no retry is scheduled); otherwise move to `RECONNECTING`,
increment the counter and compute the backoff delay to sleep. -/
def reconnectStep (c : WSClient) : WSClient × Option ℚ :=
  if c.maxReconnectAttempts ≤ c.reconnectAttempts then
    ({ c with state := .closed }, none)
  else
    let c1 : WSClient :=
      { c with state := .reconnecting,
               reconnectAttempts := c.reconnectAttempts + 1 }
    (c1, some (reconnectDelay c.reconnectDelayBase c1.reconnectAttempts))

/-! ## Strategy engine (`src/core/strategy.ts`) -/

/-- The `StrategyState` enumeration. -/
inductive StrategyState : Type where
  | stopped : StrategyState
  | running : StrategyState
  | paused : StrategyState
deriving DecidableEq, Repr

/-- Events emitted by the strategy engine. -/
inductive StrategyEvent : Type where
  | order : String → StrategyEvent
  | errored : ExError → StrategyEvent
  | startedEv : StrategyEvent
  | stoppedEv : StrategyEvent
  | pausedEv : StrategyEvent
  | resumedEv : StrategyEvent
deriving DecidableEq, Repr

/-- The fields of `Strategy` its lifecycle reads and writes.  `tickTimer`
records whether the repeating tick interval is installed; orders and
positions are tracked by id. -/
structure StrategyS : Type where
  state : StrategyState
  tickTimer : Bool
  positions : List String
  openOrders : List String
deriving DecidableEq, Repr

namespace Strategy

/-- Source `Strategy.cancelAllOrders`'s loop: attempt `cancelOrder` for every
tracked order in turn; a failure is caught (`catch { void 0 }`) and the loop
continues.  Returns each order id paired with whether its cancellation
succeeded — every listed order is attempted. -/
def cancelAttempts (cancelResult : String → Except ExError Unit) :
    List String → List (String × Bool)
  | [] => []
  | o :: rest =>
      match cancelResult o with
      | .ok _ => (o, true) :: cancelAttempts cancelResult rest
      | .error _ => (o, false) :: cancelAttempts cancelResult rest

/-- Source `Strategy.stop`: an early return when already `STOPPED`; otherwise set
the state to `STOPPED`, clear the tick timer, attempt cancellation of every
locally tracked open order (clearing the list afterwards), and emit
`stopped`.  Returns the new state, the cancellation attempts made, and the
events emitted. -/
def stop (cancelResult : String → Except ExError Unit) (s : StrategyS) :
    StrategyS × List (String × Bool) × List StrategyEvent :=
  if s.state = .stopped then (s, [], [])
  else
    let s1 : StrategyS := { s with state := .stopped, tickTimer := false }
    let attempts := cancelAttempts cancelResult s1.openOrders
    ({ s1 with openOrders := [] }, attempts, [.stoppedEv])

/-- The tick handler installed by `Strategy.start`: a short-circuit when the
state is not `RUNNING`; otherwise `refreshState()` (whose success carries the
refreshed positions and open orders) then `onTick()`, with any error from
either caught inside the handler and reported as an `error` event.  The
return type has no error component: nothing propagates to the scheduler, and
neither the timer flag nor the state is touched. -/
def tick (s : StrategyS)
    (refresh : Except ExError (List String × List String))
    (onTickResult : Except ExError Unit) : StrategyS × List StrategyEvent :=
  if s.state ≠ .running then (s, [])
  else
    match refresh with
    | .error e => (s, [.errored e])
    | .ok (ps, os) =>
        let s1 : StrategyS := { s with positions := ps, openOrders := os }
        match onTickResult with
        | .error e => (s1, [.errored e])
        | .ok _ => (s1, [])

end Strategy

/-! ## Theorems -/

/-- C7: for every cache state and asset id, `hasData(id)` is true iff a
snapshot is stored for that id with non-empty bids and non-empty asks; it is
false on the fresh cache (before any snapshot), and after any `update` for
that id it equals the conjunction of the new snapshot's sides being
non-empty — so it becomes true after a snapshot with both sides non-empty
and false again if a later snapshot empties either side. -/
theorem hasData_spec (m : OrderbookManager) (id : String) :
    (m.hasData id = true ↔
      ∃ ob, m.get id = some ob ∧ ob.bids ≠ [] ∧ ob.asks ≠ []) ∧
    OrderbookManager.empty.hasData id = false ∧
    (∀ ob : Orderbook, (m.update id ob).hasData id =
      (decide (ob.bids ≠ []) && decide (ob.asks ≠ []))) := by
  refine ⟨?_, ?_, ?_⟩
  · unfold OrderbookManager.hasData
    cases h : m.get id with
    | none => simp [h]
    | some ob =>
        simp only [h, Bool.and_eq_true, decide_eq_true_eq, List.length_pos,
          Option.some.injEq]
        constructor
        · rintro ⟨hb, ha⟩
          exact ⟨ob, rfl, hb, ha⟩
        · rintro ⟨ob', rfl, hb, ha⟩
          exact ⟨hb, ha⟩
  · rfl
  · intro ob
    unfold OrderbookManager.hasData OrderbookManager.get
      OrderbookManager.update
    simp [List.length_pos]

/-- C7 witness: on a fresh cache, `hasData "a"` is false; after applying a
snapshot with one bid and one ask it is true; after a later snapshot that
empties the ask side it is false again. -/
theorem hasData_spec_witness :
    OrderbookManager.empty.hasData "a" = false ∧
    (OrderbookManager.empty.update "a"
      ⟨[(1/2, 10)], [(3/5, 4)], 0, "a", "m"⟩).hasData "a" = true ∧
    ((OrderbookManager.empty.update "a"
      ⟨[(1/2, 10)], [(3/5, 4)], 0, "a", "m"⟩).update "a"
      ⟨[(1/2, 10)], [], 5, "a", "m"⟩).hasData "a" = false := by
  refine ⟨(hasData_spec OrderbookManager.empty "a").2.1, ?_, ?_⟩
  · rw [(hasData_spec OrderbookManager.empty "a").2.2
      ⟨[(1/2, 10)], [(3/5, 4)], 0, "a", "m"⟩]
    rfl
  · rw [(hasData_spec (OrderbookManager.empty.update "a"
      ⟨[(1/2, 10)], [(3/5, 4)], 0, "a", "m"⟩) "a").2.2
      ⟨[(1/2, 10)], [], 5, "a", "m"⟩]
    rfl

/-- C8: for every orderbook snapshot, when both best prices exist,
`midPrice` is their arithmetic mean and `spread` is best ask minus best bid;
when either side of the book is empty both return `none`. -/
theorem midPrice_spread_spec (ob : Orderbook) :
    (∀ bid ask, OrderbookUtils.bestBid ob = some bid →
      OrderbookUtils.bestAsk ob = some ask →
      OrderbookUtils.midPrice ob = some ((bid + ask) / 2) ∧
      OrderbookUtils.spread ob = some (ask - bid)) ∧
    (ob.bids = [] ∨ ob.asks = [] →
      OrderbookUtils.midPrice ob = none ∧
      OrderbookUtils.spread ob = none) := by
  constructor
  · intro bid ask hb ha
    constructor
    · unfold OrderbookUtils.midPrice
      rw [hb, ha]
    · unfold OrderbookUtils.spread
      rw [hb, ha]
  · intro h
    have hnone : OrderbookUtils.bestBid ob = none ∨
        OrderbookUtils.bestAsk ob = none := by
      rcases h with h | h
      · exact Or.inl (by simp [OrderbookUtils.bestBid, h])
      · exact Or.inr (by simp [OrderbookUtils.bestAsk, h])
    unfold OrderbookUtils.midPrice OrderbookUtils.spread
    rcases hnone with h' | h' <;> rw [h']
    · simp
    · cases OrderbookUtils.bestBid ob <;> simp

/-- C8 witness: with best bid `0.48` and best ask `0.52`, `midPrice` is
`0.50` and `spread` is `0.04`; with an empty ask side both are `none`. -/
theorem midPrice_spread_spec_witness :
    OrderbookUtils.midPrice ⟨[(48/100, 10)], [(52/100, 5)], 0, "a", "m"⟩ =
      some (50/100) ∧
    OrderbookUtils.spread ⟨[(48/100, 10)], [(52/100, 5)], 0, "a", "m"⟩ =
      some (4/100) ∧
    OrderbookUtils.midPrice ⟨[(48/100, 10)], [], 0, "a", "m"⟩ = none ∧
    OrderbookUtils.spread ⟨[(48/100, 10)], [], 0, "a", "m"⟩ = none := by
  obtain ⟨hmid, hspread⟩ :=
    (midPrice_spread_spec ⟨[(48/100, 10)], [(52/100, 5)], 0, "a", "m"⟩).1
      (48/100) (52/100) rfl rfl
  obtain ⟨hmid2, hspread2⟩ :=
    (midPrice_spread_spec ⟨[(48/100, 10)], [], 0, "a", "m"⟩).2
      (Or.inr rfl)
  refine ⟨?_, ?_, hmid2, hspread2⟩
  · rw [hmid]; norm_num
  · rw [hspread]; norm_num

/-- Every level kept by the filtering loop of `fromRestResponse` has strictly
positive price and size. -/
theorem keptLevels_pos (raw : List OrderbookUtils.RawLevel) :
    ∀ lvl ∈ OrderbookUtils.keptLevels raw, 0 < lvl.1 ∧ 0 < lvl.2 := by
  intro lvl hmem
  rw [OrderbookUtils.keptLevels, List.mem_filterMap] at hmem
  obtain ⟨a, _, ha⟩ := hmem
  obtain ⟨p, s⟩ := a
  cases p with
  | none => simp at ha
  | some p =>
      cases s with
      | none => simp at ha
      | some s =>
          dsimp only at ha
          by_cases hps : 0 < p ∧ 0 < s
          · rw [if_pos hps] at ha
            cases Option.some.inj ha
            exact hps
          · rw [if_neg hps] at ha
            exact absurd ha (by simp)

/-- C9: for every raw REST orderbook response, the snapshot built by
`fromRestResponse` contains no level with zero or negative price or size,
its bids are sorted descending by price and its asks ascending by price —
so this producer never persists a zero/negative level into the cache. -/
theorem fromRestResponse_spec (rawBids rawAsks : List OrderbookUtils.RawLevel)
    (now : ℤ) (tid : String) :
    (∀ lvl ∈ (OrderbookUtils.fromRestResponse rawBids rawAsks now tid).bids,
      0 < lvl.1 ∧ 0 < lvl.2) ∧
    (∀ lvl ∈ (OrderbookUtils.fromRestResponse rawBids rawAsks now tid).asks,
      0 < lvl.1 ∧ 0 < lvl.2) ∧
    (OrderbookUtils.fromRestResponse rawBids rawAsks now tid).bids.Sorted
      OrderbookUtils.bidOrder ∧
    (OrderbookUtils.fromRestResponse rawBids rawAsks now tid).asks.Sorted
      OrderbookUtils.askOrder := by
  refine ⟨?_, ?_, ?_, ?_⟩
  · intro lvl hmem
    have : lvl ∈ OrderbookUtils.keptLevels rawBids :=
      (List.perm_insertionSort OrderbookUtils.bidOrder
        (OrderbookUtils.keptLevels rawBids)).mem_iff.mp hmem
    exact keptLevels_pos rawBids lvl this
  · intro lvl hmem
    have : lvl ∈ OrderbookUtils.keptLevels rawAsks :=
      (List.perm_insertionSort OrderbookUtils.askOrder
        (OrderbookUtils.keptLevels rawAsks)).mem_iff.mp hmem
    exact keptLevels_pos rawAsks lvl this
  · exact List.sorted_insertionSort OrderbookUtils.bidOrder
      (OrderbookUtils.keptLevels rawBids)
  · exact List.sorted_insertionSort OrderbookUtils.askOrder
      (OrderbookUtils.keptLevels rawAsks)

/-- C9 witness: a raw response holding a zero-priced bid, a negative-sized
bid, a `NaN` ask and out-of-order levels produces a snapshot with only the
positive levels, bids sorted descending and asks ascending, and every
persisted level strictly positive. -/
theorem fromRestResponse_spec_witness :
    (OrderbookUtils.fromRestResponse
      [(some 0, some 5), (some (3/10), some 1), (some (1/2), some 10)]
      [(none, some 2), (some (7/10), some 4), (some (3/5), some (-2)),
        (some (11/20), some 6)] 0 "a").bids = [(1/2, 10), (3/10, 1)] ∧
    (OrderbookUtils.fromRestResponse
      [(some 0, some 5), (some (3/10), some 1), (some (1/2), some 10)]
      [(none, some 2), (some (7/10), some 4), (some (3/5), some (-2)),
        (some (11/20), some 6)] 0 "a").asks = [(11/20, 6), (7/10, 4)] ∧
    (0 : ℚ) < (1/2 : ℚ) ∧
    (OrderbookUtils.fromRestResponse
      [(some 0, some 5), (some (3/10), some 1), (some (1/2), some 10)]
      [(none, some 2), (some (7/10), some 4), (some (3/5), some (-2)),
        (some (11/20), some 6)] 0 "a").bids.Sorted
      OrderbookUtils.bidOrder := by
  refine ⟨?_, ?_, by norm_num, (fromRestResponse_spec
    [(some 0, some 5), (some (3/10), some 1), (some (1/2), some 10)]
    [(none, some 2), (some (7/10), some 4), (some (3/5), some (-2)),
      (some (11/20), some 6)] 0 "a").2.2.1⟩
  · show ((OrderbookUtils.keptLevels _).insertionSort _) = _
    norm_num [OrderbookUtils.keptLevels, List.filterMap,
      List.insertionSort, List.orderedInsert, OrderbookUtils.bidOrder]
  · show ((OrderbookUtils.keptLevels _).insertionSort _) = _
    norm_num [OrderbookUtils.keptLevels, List.filterMap,
      List.insertionSort, List.orderedInsert, OrderbookUtils.askOrder]

/-- C2: for every rate-limiter state whose sliding 1000 ms window (the
timestamps within the last second, which is what survives the filter) is
non-empty and already holds at least the configured requests-per-second
count, a `checkRateLimit` call at the current time throws a
`RateLimitError` — returning it rather than sleeping — whose wait hint is
`1000` minus the elapsed time since the oldest timestamp of the window, and
that hint is strictly positive.  Timestamps are produced by `Date.now()`,
hence positive and appended in chronological order. -/
theorem checkRateLimit_rejects (rateLimit : ℕ) (now : ℤ) (times : List ℤ)
    (hlen : rateLimit ≤ (windowFilter now times).length)
    (hne : windowFilter now times ≠ [])
    (hpos : ∀ t ∈ times, 0 < t)
    (hsorted : times.Sorted (· ≤ ·)) :
    ∃ oldest, (windowFilter now times).head? = some oldest ∧
      (∀ t ∈ windowFilter now times, oldest ≤ t) ∧
      checkRateLimit rateLimit now times =
        (windowFilter now times, some (1000 - (now - oldest))) ∧
      0 < 1000 - (now - oldest) := by
  obtain ⟨oldest, rest, hw⟩ := List.exists_cons_of_ne_nil hne
  have hmem_w : oldest ∈ windowFilter now times := by
    rw [hw]; exact List.mem_cons_self oldest rest
  have hmem : oldest ∈ times := List.mem_of_mem_filter hmem_w
  have holdpos : 0 < oldest := hpos oldest hmem
  have hlt : now - oldest < 1000 := by
    have h := hmem_w
    unfold windowFilter at h
    rw [List.mem_filter] at h
    exact of_decide_eq_true h.2
  have hsw : (windowFilter now times).Pairwise (· ≤ ·) := by
    unfold windowFilter
    exact List.Pairwise.filter _ hsorted
  have hmin : ∀ t ∈ windowFilter now times, oldest ≤ t := by
    intro t ht
    rw [hw] at ht hsw
    rcases List.mem_cons.mp ht with rfl | ht
    · exact le_refl t
    · exact (List.pairwise_cons.mp hsw).1 t ht
  have h0 : oldest ≠ 0 := by omega
  have hst : (0 : ℤ) < 1000 - (now - oldest) := by omega
  refine ⟨oldest, by rw [hw]; rfl, hmin, ?_, hst⟩
  rw [hw] at hlen
  simp only [checkRateLimit, hw, List.head?_cons, if_pos hlen, if_pos h0,
    if_pos hst]

/-- C2 witness: with a 3 requests/second limit, three calls admitted at
`t = 100, 300, 600` ms pass; a fourth call at `t = 800` ms — inside the same
1000 ms window — throws with wait hint `1000 − (800 − 100) = 300`, strictly
between 0 and 1000, without recording the call. -/
theorem checkRateLimit_rejects_witness :
    checkRateLimit 3 100 [] = ([100], none) ∧
    checkRateLimit 3 300 [100] = ([100, 300], none) ∧
    checkRateLimit 3 600 [100, 300] = ([100, 300, 600], none) ∧
    checkRateLimit 3 800 [100, 300, 600] = ([100, 300, 600], some 300) ∧
    (0 : ℤ) < 300 ∧ (300 : ℤ) < 1000 := by
  refine ⟨by decide, by decide, by decide, ?_, by decide, by decide⟩
  obtain ⟨oldest, hhead, _, heq, _⟩ :=
    checkRateLimit_rejects 3 800 [100, 300, 600] (by decide) (by decide)
      (by decide) (by decide)
  have hw : windowFilter 800 [100, 300, 600] = [100, 300, 600] := by decide
  rw [hw] at hhead heq
  cases Option.some.inj hhead
  rw [heq]
  decide

/-- Case analysis on `checkRateLimit`: either the call passes and the new
window is the filtered window with the current time appended, or it throws
and the new window is exactly the filtered window. -/
theorem checkRateLimit_cases (rateLimit : ℕ) (now : ℤ) (times : List ℤ) :
    checkRateLimit rateLimit now times =
      (windowFilter now times ++ [now], none) ∨
    ∃ hint, checkRateLimit rateLimit now times =
      (windowFilter now times, some hint) := by
  simp only [checkRateLimit]
  by_cases h1 : rateLimit ≤ (windowFilter now times).length
  · rw [if_pos h1]
    cases hh : (windowFilter now times).head? with
    | none => exact Or.inl rfl
    | some oldest =>
        dsimp only
        by_cases h2 : oldest ≠ 0
        · rw [if_pos h2]
          by_cases h3 : (0 : ℤ) < 1000 - (now - oldest)
          · rw [if_pos h3]
            exact Or.inr ⟨1000 - (now - oldest), rfl⟩
          · rw [if_neg h3]
            exact Or.inl rfl
        · rw [if_neg h2]
          exact Or.inl rfl
  · rw [if_neg h1]
    exact Or.inl rfl

/-- C10: when `checkRateLimit` throws a rate-limit error, the call's
timestamp is not appended to the sliding window: the stored window is
exactly the filtered old window — a sublist of the previous timestamps, no
longer than it, every element of which was already present.  Only passing
calls are recorded. -/
theorem checkRateLimit_reject_no_append (rateLimit : ℕ) (now : ℤ)
    (times : List ℤ) (hint : ℤ)
    (hrej : (checkRateLimit rateLimit now times).2 = some hint) :
    (checkRateLimit rateLimit now times).1 = windowFilter now times ∧
    (checkRateLimit rateLimit now times).1.Sublist times ∧
    (checkRateLimit rateLimit now times).1.length ≤ times.length ∧
    ∀ t ∈ (checkRateLimit rateLimit now times).1, t ∈ times := by
  rcases checkRateLimit_cases rateLimit now times with h | ⟨hint', h⟩
  · rw [h] at hrej
    exact absurd hrej (by simp)
  · have h1 : (checkRateLimit rateLimit now times).1 =
        windowFilter now times := by rw [h]
    have hsub : (checkRateLimit rateLimit now times).1.Sublist times := by
      rw [h1]; exact List.filter_sublist times
    exact ⟨h1, hsub, hsub.length_le,
      fun t ht => hsub.subset ht⟩

/-- C10 witness: the rejected fourth call of the C2 scenario leaves the
window at `[100, 300, 600]` — a sublist of the old timestamps with nothing
appended. -/
theorem checkRateLimit_reject_no_append_witness :
    (checkRateLimit 3 800 [100, 300, 600]).1 = [100, 300, 600] ∧
    (checkRateLimit 3 800 [100, 300, 600]).1.Sublist [100, 300, 600] := by
  obtain ⟨h1, h2, _, _⟩ :=
    checkRateLimit_reject_no_append 3 800 [100, 300, 600] 300 (by decide)
  exact ⟨by rw [h1]; decide, h2⟩

/-- When every attempt from `attempt` on fails with a retryable error, the
retry loop keeps retrying, sleeping the backoff delay of each attempt, until
`maxRetries` is exhausted, and re-raises the last error; `checkRateLimit`
runs once per attempt made. -/
theorem withRetryGo_all_fail {α : Type} (maxRetries : ℕ) (base backoff : ℚ)
    (jitter : ℕ → ℚ) (rateCheck : ℕ → Option ℤ) (fn : ℕ → Except ExError α)
    (errs : ℕ → ExError)
    (hret : ∀ i, (errs i).isRetryable = true)
    (hrc : ∀ i, rateCheck i = none)
    (hfn : ∀ i, fn i = .error (errs i)) :
    ∀ fuel attempt, attempt + fuel = maxRetries + 1 → attempt ≤ maxRetries →
      withRetryGo maxRetries base backoff jitter rateCheck fn attempt fuel =
        ⟨.error (errs maxRetries), fuel,
          (List.range' attempt (fuel - 1)).map
            (retryDelayOf base backoff jitter)⟩ := by
  intro fuel
  induction fuel with
  | zero => intro attempt h hle; omega
  | succ f ih =>
      intro attempt h hle
      simp only [withRetryGo, hrc attempt, hfn attempt]
      by_cases hlt : attempt < maxRetries
      · rw [if_pos ⟨hret attempt, hlt⟩]
        rw [ih (attempt + 1) (by omega) (by omega)]
        obtain ⟨k, rfl⟩ : ∃ k, f = k + 1 := ⟨f - 1, by omega⟩
        simp only [Nat.add_sub_cancel]
        rw [List.range'_succ attempt k 1, List.map_cons]
      · have ha : attempt = maxRetries := by omega
        have hf : f = 0 := by omega
        subst ha hf
        rw [if_neg (fun hc => hlt hc.2)]
        rfl

/-- One retrying step of the loop: a retryable failure below the retry cap
sleeps the attempt's backoff delay and continues with the next attempt,
having run the rate-limit check once. -/
theorem withRetryGo_retry_step {α : Type} (maxRetries : ℕ) (base backoff : ℚ)
    (jitter : ℕ → ℚ) (rateCheck : ℕ → Option ℤ) (fn : ℕ → Except ExError α)
    (attempt fuel : ℕ) (e : ExError)
    (hrc : rateCheck attempt = none) (hfn : fn attempt = .error e)
    (hret : e.isRetryable = true) (hlt : attempt < maxRetries) :
    withRetryGo maxRetries base backoff jitter rateCheck fn attempt
        (fuel + 1) =
      ⟨(withRetryGo maxRetries base backoff jitter rateCheck fn (attempt + 1)
          fuel).result,
        (withRetryGo maxRetries base backoff jitter rateCheck fn (attempt + 1)
          fuel).rateChecks + 1,
        retryDelayOf base backoff jitter attempt ::
          (withRetryGo maxRetries base backoff jitter rateCheck fn
            (attempt + 1) fuel).delays⟩ := by
  simp only [withRetryGo, hrc, hfn]
  rw [if_pos ⟨hret, hlt⟩]

/-- One succeeding step of the loop: when the rate check passes and the
operation succeeds, the loop returns the value after a single rate-limit
check and no further delay. -/
theorem withRetryGo_ok_step {α : Type} (maxRetries : ℕ) (base backoff : ℚ)
    (jitter : ℕ → ℚ) (rateCheck : ℕ → Option ℤ) (fn : ℕ → Except ExError α)
    (attempt fuel : ℕ) (v : α)
    (hrc : rateCheck attempt = none) (hfn : fn attempt = .ok v) :
    withRetryGo maxRetries base backoff jitter rateCheck fn attempt
      (fuel + 1) = ⟨.ok v, 1, []⟩ := by
  simp only [withRetryGo, hrc, hfn]

/-- C3: for every operation wrapped by `withRetry` — with `rateCheck i` the
outcome of the `checkRateLimit()` call before attempt `i` and `fn i` the
operation's outcome on attempt `i` — (1) a non-retryable failure propagates
immediately after a single attempt and a single rate-limit check; (2) when
every attempt fails with a retryable (`NetworkError`/`RateLimitError`)
error, the loop retries up to `maxRetries`, sleeps
`base * backoff ^ attempt + jitter` before each retry, re-raises the last
error, and runs the rate-limit check exactly once per attempt
(`maxRetries + 1` times); (3) an operation failing with a Network error
twice and succeeding on the 3rd attempt (with `maxRetries ≥ 2` and the rate
check passing) returns the success value with the rate-limit check run 3
times; (4) each backoff delay equals `base * backoff ^ attempt` plus the
jitter, which bounds it below `base * backoff ^ attempt + 1000` when the
random draw is within `[0, 1000)`. -/
theorem withRetry_spec {α : Type} (maxRetries : ℕ) (base backoff : ℚ)
    (jitter : ℕ → ℚ) (rateCheck : ℕ → Option ℤ)
    (fn : ℕ → Except ExError α) :
    (∀ e : ExError, e.isRetryable = false → rateCheck 0 = none →
      fn 0 = .error e →
      withRetry maxRetries base backoff jitter rateCheck fn =
        ⟨.error e, 1, []⟩) ∧
    (∀ errs : ℕ → ExError, (∀ i, (errs i).isRetryable = true) →
      (∀ i, rateCheck i = none) → (∀ i, fn i = .error (errs i)) →
      withRetry maxRetries base backoff jitter rateCheck fn =
        ⟨.error (errs maxRetries), maxRetries + 1,
          (List.range maxRetries).map (retryDelayOf base backoff jitter)⟩) ∧
    (∀ v : α, 2 ≤ maxRetries → (∀ i, rateCheck i = none) →
      fn 0 = .error .network → fn 1 = .error .network → fn 2 = .ok v →
      withRetry maxRetries base backoff jitter rateCheck fn =
        ⟨.ok v, 3, [retryDelayOf base backoff jitter 0,
          retryDelayOf base backoff jitter 1]⟩) ∧
    (∀ attempt, 0 ≤ jitter attempt → jitter attempt < 1000 →
      base * backoff ^ attempt ≤ retryDelayOf base backoff jitter attempt ∧
      retryDelayOf base backoff jitter attempt <
        base * backoff ^ attempt + 1000) := by
  refine ⟨?_, ?_, ?_, ?_⟩
  · intro e hne hrc0 hfn0
    simp only [withRetry, withRetryGo, hrc0, hfn0]
    rw [if_neg (fun hc => by rw [hne] at hc; exact Bool.false_ne_true hc.1)]
  · intro errs hret hrc hfn
    rw [withRetry, withRetryGo_all_fail maxRetries base backoff jitter
      rateCheck fn errs hret hrc hfn (maxRetries + 1) 0 (by omega)
      (Nat.zero_le _)]
    simp only [Nat.add_sub_cancel]
    rw [List.range_eq_range']
  · intro v hmax hrc h0 h1 h2
    obtain ⟨k, rfl⟩ : ∃ k, maxRetries = k + 2 := ⟨maxRetries - 2, by omega⟩
    have e1 := withRetryGo_retry_step (k + 2) base backoff jitter rateCheck
      fn 0 (k + 2) .network (hrc 0) h0 rfl (by omega)
    have e2 := withRetryGo_retry_step (k + 2) base backoff jitter rateCheck
      fn 1 (k + 1) .network (hrc 1) h1 rfl (by omega)
    have e3 := withRetryGo_ok_step (k + 2) base backoff jitter rateCheck
      fn 2 k v (hrc 2) h2
    rw [show k + 1 + 1 = k + 2 by omega] at e2
    rw [withRetry, e1, e2, e3]
  · intro attempt hj0 hj1
    unfold retryDelayOf
    constructor <;> linarith

/-- The concrete operation of the C3 witness: fails with a `NetworkError` on
attempts 0 and 1, succeeds with `42` on attempt 2. -/
def retryFnW : ℕ → Except ExError ℕ := fun i =>
  if i < 2 then .error .network else .ok 42

/-- C3 witness: with `maxRetries = 3`, base delay `1`, backoff `2`, zero
jitter and a passing rate check, the twice-failing operation returns `42`
with the rate-limit check run 3 times and backoff delays `[1, 2]`; a
non-retryable `AuthenticationError` propagates after a single attempt. -/
theorem withRetry_spec_witness :
    withRetry 3 1 2 (fun _ => 0) (fun _ => none) retryFnW =
      ⟨.ok 42, 3, [1, 2]⟩ ∧
    withRetry 3 1 2 (fun _ => 0) (fun _ => none)
      (fun _ => (.error .authentication : Except ExError ℕ)) =
      ⟨.error .authentication, 1, []⟩ := by
  constructor
  · have h := (withRetry_spec 3 1 2 (fun _ => 0) (fun _ => none)
      retryFnW).2.2.1 42 (by omega) (fun i => rfl) rfl rfl rfl
    rw [h]
    norm_num [retryDelayOf]
  · exact (withRetry_spec 3 1 2 (fun _ => 0) (fun _ => none)
      (fun _ => (.error .authentication : Except ExError ℕ))).1
      .authentication rfl rfl rfl

/-- C4: the reconnection back-off delay of attempt `n ≥ 1` is
`min(60000, base * 1.5^(n-1))` — with base 1000 ms this gives 1000, 1500 and
2250 ms for attempts 1, 2 and 3; the attempt counter resets to zero on the
open handler, the one transition into `CONNECTED`; and once the counter has
reached `maxReconnectAttempts`, `reconnect()` sets the state to `CLOSED` and
returns without scheduling a retry and without throwing (its result carries
no error component). -/
theorem reconnect_backoff_spec (c : WSClient) :
    (reconnectDelay 1000 1 = 1000 ∧ reconnectDelay 1000 2 = 1500 ∧
      reconnectDelay 1000 3 = 2250) ∧
    ((openHandler c).reconnectAttempts = 0 ∧
      (openHandler c).state = .connected) ∧
    (c.maxReconnectAttempts ≤ c.reconnectAttempts →
      reconnectStep c = ({ c with state := .closed }, none)) ∧
    (c.reconnectAttempts < c.maxReconnectAttempts →
      reconnectStep c =
        ({ c with state := .reconnecting, reconnectAttempts := c.reconnectAttempts + 1 },
          some (min 60000
            (c.reconnectDelayBase * (3 / 2) ^ c.reconnectAttempts)))) := by
  refine ⟨⟨?_, ?_, ?_⟩, ⟨rfl, rfl⟩, ?_, ?_⟩
  · unfold reconnectDelay; norm_num
  · unfold reconnectDelay; norm_num
  · unfold reconnectDelay; norm_num
  · intro h
    unfold reconnectStep
    rw [if_pos h]
  · intro h
    unfold reconnectStep
    rw [if_neg (by omega)]
    unfold reconnectDelay
    simp only [Nat.add_sub_cancel]

/-- C4 witness: the three concrete delays for base 1000 ms; a client with 5
of 5 attempts used settles in `Closed` with no retry scheduled; a client
with 0 of 999 attempts used moves to `Reconnecting` with counter 1 and delay
1000 ms; the open handler resets a 7-attempt counter to 0 entering
`Connected`. -/
theorem reconnect_backoff_spec_witness :
    reconnectDelay 1000 1 = 1000 ∧ reconnectDelay 1000 2 = 1500 ∧
    reconnectDelay 1000 3 = 2250 ∧
    reconnectStep ⟨.reconnecting, 5, true, 5, 1000⟩ =
      (⟨.closed, 5, true, 5, 1000⟩, none) ∧
    reconnectStep ⟨.connected, 0, true, 999, 1000⟩ =
      (⟨.reconnecting, 1, true, 999, 1000⟩, some 1000) ∧
    openHandler ⟨.connecting, 7, true, 999, 1000⟩ =
      ⟨.connected, 0, true, 999, 1000⟩ := by
  obtain ⟨⟨d1, d2, d3⟩, _, hgiveup, _⟩ :=
    reconnect_backoff_spec ⟨.reconnecting, 5, true, 5, 1000⟩
  obtain ⟨_, _, _, hretry⟩ :=
    reconnect_backoff_spec ⟨.connected, 0, true, 999, 1000⟩
  obtain ⟨_, ⟨hcnt, hst⟩, _, _⟩ :=
    reconnect_backoff_spec ⟨.connecting, 7, true, 999, 1000⟩
  refine ⟨d1, d2, d3, hgiveup (le_refl 5), ?_, ?_⟩
  · rw [hretry (by decide)]
    norm_num
  · have : openHandler ⟨.connecting, 7, true, 999, 1000⟩ =
        ⟨.connected, 0, true, 999, 1000⟩ := rfl
    exact this

/-- The streaming client as freshly constructed: `DISCONNECTED`, zero
reconnect attempts, and the default configuration (`autoReconnect` on,
`maxReconnectAttempts` 999, `reconnectDelay` 3000 ms). -/
def wsInitial : WSClient := ⟨.disconnected, 0, true, 999, 3000⟩

/-- C1 counterexample: on a fresh client whose transport opens and whose
`authenticate()` then fails, `connect()` does reject with that error — but
the state machine is `CONNECTED` at that point, because the open handler set
`this.state = WebSocketState.CONNECTED` before `authenticate()` was called
and the rejection path never resets it.  This refutes the claim's clause
that the state stays outside `Connected`. -/
theorem connect_auth_fail_counterexample :
    (connectOpen wsInitial (.error .authentication)).2 =
      .rejected .authentication ∧
    (connectOpen wsInitial (.error .authentication)).1.state = .connected := by
  constructor <;> rfl

/-- C1 amended: for every client not already connected, when the transport
opens and authentication then fails, `connect()` rejects with that error,
but the state machine has already transitioned into `Connected` (with the
attempt counter reset) in the open handler and remains `Connected` after the
rejection. -/
theorem connect_auth_fail_amended (c : WSClient) (e : ExError)
    (h : c.state ≠ .connected) :
    connectOpen c (.error e) =
      ({ c with state := .connected, reconnectAttempts := 0 },
        .rejected e) := by
  unfold connectOpen openHandler
  rw [if_neg h]

/-- C1 amended witness: the fresh client rejects with the authentication
error while sitting in `Connected`. -/
theorem connect_auth_fail_amended_witness :
    connectOpen wsInitial (.error .authentication) =
      ({ wsInitial with state := .connected, reconnectAttempts := 0 },
        .rejected .authentication) :=
  connect_auth_fail_amended wsInitial .authentication (by decide)

/-- Every order in the list is attempted by `cancelAllOrders`' loop, whether
or not its cancellation succeeds. -/
theorem cancelAttempts_all (cancelResult : String → Except ExError Unit)
    (orders : List String) :
    (Strategy.cancelAttempts cancelResult orders).map Prod.fst = orders := by
  induction orders with
  | nil => rfl
  | cons o rest ih =>
      unfold Strategy.cancelAttempts
      cases cancelResult o <;> simp [ih]

/-- C5: the first `stop()` on a non-stopped strategy moves the state to
`Stopped`, clears the repeating tick timer, and attempts cancellation of
every order in the local open-order list at that moment — for every
cancellation-outcome assignment, including failing ones, the attempted
orders are exactly the tracked list — while a `stop()` on an
already-stopped strategy changes nothing and attempts nothing. -/
theorem stop_spec (cancelResult : String → Except ExError Unit)
    (s : StrategyS) :
    (s.state ≠ .stopped →
      Strategy.stop cancelResult s =
        ({ s with state := .stopped, tickTimer := false, openOrders := [] },
          Strategy.cancelAttempts cancelResult s.openOrders,
          [.stoppedEv]) ∧
      (Strategy.cancelAttempts cancelResult s.openOrders).map Prod.fst =
        s.openOrders) ∧
    (s.state = .stopped → Strategy.stop cancelResult s = (s, [], [])) := by
  constructor
  · intro h
    refine ⟨?_, cancelAttempts_all cancelResult s.openOrders⟩
    unfold Strategy.stop
    rw [if_neg h]
  · intro h
    unfold Strategy.stop
    rw [if_pos h]

/-- The C5 witness's cancellation oracle: cancelling `"o2"` fails with a
network error, every other cancellation succeeds. -/
def cancelW : String → Except ExError Unit := fun o =>
  if o = "o2" then .error .network else .ok ()

/-- The C5 witness's strategy state: running, timer installed, three tracked
open orders. -/
def stratW : StrategyS := ⟨.running, true, [], ["o1", "o2", "o3"]⟩

/-- C5 witness: stopping the running strategy with a failing middle
cancellation still attempts all three orders (`o2` fails, `o1` and `o3`
succeed), ends `Stopped` with the timer cleared, and a second `stop()` on a
stopped strategy is a no-op. -/
theorem stop_spec_witness :
    Strategy.stop cancelW stratW =
      (⟨.stopped, false, [], []⟩,
        [("o1", true), ("o2", false), ("o3", true)], [.stoppedEv]) ∧
    [("o1", true), ("o2", false), ("o3", true)].map Prod.fst =
      ["o1", "o2", "o3"] ∧
    Strategy.stop cancelW ⟨.stopped, false, [], ["o4"]⟩ =
      (⟨.stopped, false, [], ["o4"]⟩, [], []) := by
  obtain ⟨h1, _⟩ := (stop_spec cancelW stratW).1 (by decide)
  refine ⟨?_, by decide, (stop_spec cancelW ⟨.stopped, false, [], ["o4"]⟩).2
    rfl⟩
  rw [h1]
  rfl

/-- C6: on every tick of a running strategy, an error from the state refresh
or from the `onTick` decision callback is caught inside the tick handler and
reported as an `error` event; the handler's return type carries no error
component (nothing propagates to the scheduler), and it leaves the tick
timer installed and the state `Running`, so the next tick still fires on
schedule. -/
theorem tick_spec (s : StrategyS)
    (refresh : Except ExError (List String × List String))
    (onTickResult : Except ExError Unit) (hrun : s.state = .running) :
    ((Strategy.tick s refresh onTickResult).1.tickTimer = s.tickTimer ∧
      (Strategy.tick s refresh onTickResult).1.state = .running) ∧
    (∀ e, refresh = .error e →
      Strategy.tick s refresh onTickResult = (s, [.errored e])) ∧
    (∀ ps os e, refresh = .ok (ps, os) → onTickResult = .error e →
      Strategy.tick s refresh onTickResult =
        ({ s with positions := ps, openOrders := os }, [.errored e])) ∧
    (∀ ps os, refresh = .ok (ps, os) → onTickResult = .ok () →
      Strategy.tick s refresh onTickResult =
        ({ s with positions := ps, openOrders := os }, [])) := by
  have hne : ¬s.state ≠ .running := fun h => h hrun
  refine ⟨?_, ?_, ?_, ?_⟩
  · unfold Strategy.tick
    rw [if_neg hne]
    cases refresh with
    | error e => exact ⟨rfl, hrun⟩
    | ok pr =>
        obtain ⟨ps, os⟩ := pr
        cases onTickResult with
        | error e => exact ⟨rfl, hrun⟩
        | ok u => exact ⟨rfl, hrun⟩
  · intro e h
    unfold Strategy.tick
    rw [if_neg hne, h]
  · intro ps os e h1 h2
    unfold Strategy.tick
    rw [if_neg hne, h1, h2]
  · intro ps os h1 h2
    unfold Strategy.tick
    rw [if_neg hne, h1, h2]

/-- C6 witness: a running strategy whose refresh fails with a network error
reports it as an `error` event, keeps its timer installed and stays
`Running`. -/
theorem tick_spec_witness :
    Strategy.tick ⟨.running, true, [], []⟩ (.error .network) (.ok ()) =
      (⟨.running, true, [], []⟩, [.errored .network]) ∧
    (Strategy.tick ⟨.running, true, [], []⟩ (.error .network)
      (.ok ())).1.tickTimer = true := by
  obtain ⟨⟨ht, _⟩, h2, _, _⟩ := tick_spec ⟨.running, true, [], []⟩
    (.error .network) (.ok ()) rfl
  exact ⟨h2 .network rfl, ht⟩
